import Mathlib

/-!
Verification model of the FrameScope frame-sampling core.

The Go source is shallowly embedded as follows:
* Go `map[int]T` values are association lists `List (Int × T)` with
  duplicate-free keys; `lookupKey` models map indexing, and map iteration
  order is the list order (theorems about map-order independence quantify
  over permutations of the association list).
* `float64` CPU-second quantities and timestamps are modelled as `ℚ`.
* `sort.Slice` with the comparator from `compute.go` / `render.go` is
  modelled as `List.insertionSort` over the corresponding non-strict
  relation (`rowLe`, `aggLe`); for key-distinct inputs every comparison
  sort agrees with this model.
* The shared `monitorState` struct is the record `MonitorState`; the
  `sync.Mutex` is not represented (each critical section of the source
  becomes one pure state-transition function).  The `context.CancelFunc`
  handle is modelled by the Bool field `cancel` ("a handle is present");
  invoking it, launching a goroutine, and the cgo output boundary
  (`UpdateResults` / `ShowErrorMessage`) are modelled as emitted `effect`
  values.
-/

/- Batteries marks the arithmetic on `Rat` `@[irreducible]`; concrete
evaluations of the model (`by decide` on example runs) need those operations
to unfold, so their reducibility is restored here.  This changes nothing
about their meaning. -/
set_option allowUnsafeReducibility true in
attribute [semireducible] Rat.add Rat.sub Rat.mul Rat.inv Rat.ofScientific

/-- `processSample` from model.go: one process's cumulative CPU usage. -/
structure processSample where
  CPUSeconds : ℚ
  Command : String
deriving DecidableEq, Repr

/-- `resultRow` from model.go: CPU consumed by one process during one frame. -/
structure resultRow where
  PID : Int
  Diff : ℚ
  Command : String
deriving DecidableEq, Repr

/-- `frameRecord` from model.go: the completed results for a single frame. -/
structure frameRecord where
  Index : Int
  Rows : List resultRow
deriving DecidableEq, Repr

/-- `aggregateRow` from model.go: per-process totals across completed frames. -/
structure aggregateRow where
  PID : Int
  Total : ℚ
  Average : ℚ
  Command : String
deriving DecidableEq, Repr

/-- A snapshot (`map[int]processSample` in Go) as an association list. -/
abbrev Snapshot := List (Int × processSample)

/-- Go map indexing `m[k]` (the `ok` form): first binding of `k`, if any. -/
def lookupKey {α : Type} : List (Int × α) → Int → Option α
  | [], _ => none
  | (k2, v) :: rest, k => if k2 = k then some v else lookupKey rest k

/-- The sort order used by `computeResults` (`compute.go`): the output is
sorted so that every adjacent pair satisfies this non-strict relation —
higher `Diff` first, ties by ascending PID. -/
def rowLe (a b : resultRow) : Prop :=
  b.Diff < a.Diff ∨ (a.Diff = b.Diff ∧ a.PID ≤ b.PID)

/-- Strict version of `rowLe`: strictly larger delta, or equal delta and
strictly smaller PID (the spec's adjacent-rows ordering). -/
def rowLt (a b : resultRow) : Prop :=
  b.Diff < a.Diff ∨ (a.Diff = b.Diff ∧ a.PID < b.PID)

instance : DecidableRel rowLe := fun a b => by unfold rowLe; exact inferInstance

instance : DecidableRel rowLt := fun a b => by unfold rowLt; exact inferInstance

instance : IsTotal resultRow rowLe := by
  constructor
  intro a b
  unfold rowLe
  rcases lt_trichotomy a.Diff b.Diff with h | h | h
  · exact Or.inr (Or.inl h)
  · rcases le_total a.PID b.PID with hp | hp
    · exact Or.inl (Or.inr ⟨h, hp⟩)
    · exact Or.inr (Or.inr ⟨h.symm, hp⟩)
  · exact Or.inl (Or.inl h)

instance : IsTrans resultRow rowLe := by
  constructor
  intro a b c hab hbc
  unfold rowLe at *
  rcases hab with h1 | ⟨h1, p1⟩ <;> rcases hbc with h2 | ⟨h2, p2⟩
  · exact Or.inl (lt_trans h2 h1)
  · exact Or.inl (h2 ▸ h1)
  · exact Or.inl (h1 ▸ h2)
  · exact Or.inr ⟨h1.trans h2, p1.trans p2⟩

/-- The body of the `range initial` loop in `computeResults` (compute.go):
skip PIDs absent from `current`, skip negative deltas, otherwise build a
row carrying the delta and the command from the initial snapshot. -/
def diffRow (current : Snapshot) (kv : Int × processSample) : Option resultRow :=
  match lookupKey current kv.1 with
  | none => none
  | some after =>
    let diff := after.CPUSeconds - kv.2.CPUSeconds
    if diff < 0 then none
    else some { PID := kv.1, Diff := diff, Command := kv.2.Command }

/-- `computeResults` from compute.go: diff two snapshots and sort the rows
by CPU consumption descending, PID ascending as tiebreaker. -/
def computeResults (initial current : Snapshot) : List resultRow :=
  List.insertionSort rowLe (initial.filterMap (diffRow current))

example :
    computeResults [(100, ⟨2, "a"⟩), (200, ⟨5, "b"⟩)]
      [(100, ⟨7/2, "a"⟩), (200, ⟨5, "b"⟩), (300, ⟨1, "c"⟩)] =
      [⟨100, 3/2, "a"⟩, ⟨200, 0, "b"⟩] := by decide

theorem lookupKey_eq_some_of_mem {α : Type} {m : List (Int × α)} {k : Int} {v : α}
    (hnd : (m.map Prod.fst).Nodup) (hm : (k, v) ∈ m) : lookupKey m k = some v := by
  induction m with
  | nil => cases hm
  | cons kv rest ih =>
    rcases List.mem_cons.mp hm with h | h
    · subst h
      simp [lookupKey]
    · have hk : kv.1 ≠ k := by
        intro he
        have : k ∈ rest.map Prod.fst := List.mem_map.mpr ⟨(k, v), h, rfl⟩
        exact (List.nodup_cons.mp (by simpa using hnd)).1 (he ▸ this)
      obtain ⟨k2, v2⟩ := kv
      simp only [lookupKey, if_neg hk]
      exact ih (List.nodup_cons.mp (by simpa using hnd)).2 h

theorem mem_of_lookupKey_eq_some {α : Type} {m : List (Int × α)} {k : Int} {v : α}
    (h : lookupKey m k = some v) : (k, v) ∈ m := by
  induction m with
  | nil => cases h
  | cons kv rest ih =>
    obtain ⟨k2, v2⟩ := kv
    simp only [lookupKey] at h
    by_cases he : k2 = k
    · subst he
      rw [if_pos rfl] at h
      injection h with h2
      subst h2
      exact List.mem_cons_self _ _
    · rw [if_neg he] at h
      exact List.mem_cons_of_mem _ (ih h)

theorem diffRow_eq_some {current : Snapshot} {kv : Int × processSample} {r : resultRow} :
    diffRow current kv = some r ↔
      ∃ after, lookupKey current kv.1 = some after ∧
        0 ≤ after.CPUSeconds - kv.2.CPUSeconds ∧
        r = ⟨kv.1, after.CPUSeconds - kv.2.CPUSeconds, kv.2.Command⟩ := by
  unfold diffRow
  cases hl : lookupKey current kv.1 with
  | none => simp
  | some after =>
    by_cases hneg : after.CPUSeconds - kv.2.CPUSeconds < 0
    · simp only [hneg, if_pos, reduceCtorEq, false_iff]
      rintro ⟨b, hb, hge, -⟩
      injection hb with hb2
      subst hb2
      exact absurd hge (not_le.mpr hneg)
    · simp only [if_neg hneg, Option.some.injEq]
      constructor
      · rintro rfl
        exact ⟨after, rfl, not_lt.mp hneg, rfl⟩
      · rintro ⟨b, hb, -, rfl⟩
        rw [hb]

theorem diffRows_pid_sublist (current : Snapshot) :
    ∀ initial : Snapshot,
      ((initial.filterMap (diffRow current)).map resultRow.PID).Sublist
        (initial.map Prod.fst)
  | [] => List.Sublist.refl _
  | kv :: rest => by
    cases hd : diffRow current kv with
    | none =>
      simp only [List.filterMap_cons, hd, List.map_cons]
      exact (diffRows_pid_sublist current rest).cons _
    | some r =>
      have hpid : r.PID = kv.1 := by
        obtain ⟨after, -, -, hr⟩ := diffRow_eq_some.mp hd
        rw [hr]
      simp only [List.filterMap_cons, hd, List.map_cons, hpid]
      exact (diffRows_pid_sublist current rest).cons₂ _

/-- Pre-sort diff rows: the body of the `range initial` loop, before sorting. -/
theorem mem_computeResults_iff {A B : Snapshot} {r : resultRow} :
    r ∈ computeResults A B ↔ ∃ kv ∈ A, diffRow B kv = some r := by
  unfold computeResults
  rw [(List.perm_insertionSort rowLe (A.filterMap (diffRow B))).mem_iff]
  exact List.mem_filterMap

theorem computeResults_pid_nodup (A B : Snapshot) (hA : (A.map Prod.fst).Nodup) :
    ((computeResults A B).map resultRow.PID).Nodup := by
  have hperm :
      ((computeResults A B).map resultRow.PID).Perm
        ((A.filterMap (diffRow B)).map resultRow.PID) :=
    (List.perm_insertionSort rowLe (A.filterMap (diffRow B))).map _
  exact hperm.nodup_iff.mpr ((diffRows_pid_sublist B A).nodup hA)

/-- C2: the Diff Engine returns exactly one row per PID present in both
snapshots with non-negative delta (zero deltas kept, negative deltas
dropped), each row carrying that delta and the command string from the
initial snapshot; PIDs absent from either snapshot produce no row. -/
theorem C2_diff_engine_rows (A B : Snapshot) (hA : (A.map Prod.fst).Nodup) :
    ((computeResults A B).map resultRow.PID).Nodup ∧
    (∀ r ∈ computeResults A B, ∃ a b,
        lookupKey A r.PID = some a ∧ lookupKey B r.PID = some b ∧
        r.Diff = b.CPUSeconds - a.CPUSeconds ∧ 0 ≤ r.Diff ∧ r.Command = a.Command) ∧
    (∀ pid a b, lookupKey A pid = some a → lookupKey B pid = some b →
        0 ≤ b.CPUSeconds - a.CPUSeconds →
        ({ PID := pid, Diff := b.CPUSeconds - a.CPUSeconds, Command := a.Command } :
          resultRow) ∈ computeResults A B) := by
  refine ⟨computeResults_pid_nodup A B hA, ?_, ?_⟩
  · intro r hr
    obtain ⟨kv, hkv, hd⟩ := mem_computeResults_iff.mp hr
    obtain ⟨after, hb, hge, hrw⟩ := diffRow_eq_some.mp hd
    subst hrw
    exact ⟨kv.2, after, lookupKey_eq_some_of_mem hA hkv, hb, rfl, hge, rfl⟩
  · intro pid a b ha hb hge
    refine mem_computeResults_iff.mpr ⟨(pid, a), mem_of_lookupKey_eq_some ha, ?_⟩
    exact diffRow_eq_some.mpr ⟨b, hb, hge, rfl⟩

/-- The spec's example scenario, snapshot A. -/
def exSnapA : Snapshot := [(100, ⟨2, "a"⟩), (200, ⟨5, "b"⟩)]

/-- The spec's example scenario, snapshot B. -/
def exSnapB : Snapshot := [(100, ⟨7/2, "a"⟩), (200, ⟨5, "b"⟩), (300, ⟨1, "c"⟩)]

/-- C2 witness: the theorem applied at the spec's example scenario. -/
theorem C2_diff_engine_rows_witness :
    ((exSnapA.map Prod.fst).Nodup) ∧
    (((computeResults exSnapA exSnapB).map resultRow.PID).Nodup ∧
     (∀ r ∈ computeResults exSnapA exSnapB, ∃ a b,
        lookupKey exSnapA r.PID = some a ∧ lookupKey exSnapB r.PID = some b ∧
        r.Diff = b.CPUSeconds - a.CPUSeconds ∧ 0 ≤ r.Diff ∧ r.Command = a.Command) ∧
     (∀ pid a b, lookupKey exSnapA pid = some a → lookupKey exSnapB pid = some b →
        0 ≤ b.CPUSeconds - a.CPUSeconds →
        ({ PID := pid, Diff := b.CPUSeconds - a.CPUSeconds, Command := a.Command } :
          resultRow) ∈ computeResults exSnapA exSnapB)) :=
  ⟨by decide, C2_diff_engine_rows exSnapA exSnapB (by decide)⟩

theorem rowLe_antisymm_key {a b : resultRow} (h1 : rowLe a b) (h2 : rowLe b a) :
    a.Diff = b.Diff ∧ a.PID = b.PID := by
  unfold rowLe at h1 h2
  rcases h1 with h1 | ⟨h1, p1⟩ <;> rcases h2 with h2 | ⟨h2, p2⟩
  · exact absurd (h1.trans h2) (lt_irrefl _)
  · rw [h2] at h1
    exact absurd h1 (lt_irrefl _)
  · rw [h1] at h2
    exact absurd h2 (lt_irrefl _)
  · exact ⟨h1, le_antisymm p1 p2⟩

/-- Two lists sorted by the Go comparator and containing no duplicate PIDs
are equal as soon as they are permutations of each other: the comparison
sort in `computeResults` has a unique result on map-valued inputs. -/
theorem sorted_rows_unique :
    ∀ (l1 l2 : List resultRow), l1.Perm l2 → l1.Pairwise rowLe → l2.Pairwise rowLe →
      ((l1.map resultRow.PID).Nodup) → l1 = l2
  | [], l2, hp, _, _, _ => hp.nil_eq
  | a :: t1, l2, hp, hs1, hs2, hnd => by
    cases l2 with
    | nil => exact (List.cons_ne_nil a t1 hp.eq_nil).elim
    | cons b t2 =>
      have hab : a = b := by
        by_contra hne
        have hbmem : b ∈ a :: t1 := hp.symm.subset (List.mem_cons_self _ _)
        have hamem : a ∈ b :: t2 := hp.subset (List.mem_cons_self _ _)
        have hb1 : b ∈ t1 := by
          rcases List.mem_cons.mp hbmem with h | h
          · exact absurd h.symm hne
          · exact h
        have ha2 : a ∈ t2 := by
          rcases List.mem_cons.mp hamem with h | h
          · exact absurd h hne
          · exact h
        have h1 : rowLe a b := (List.pairwise_cons.mp hs1).1 b hb1
        have h2 : rowLe b a := (List.pairwise_cons.mp hs2).1 a ha2
        have hkey := rowLe_antisymm_key h1 h2
        have hmem : a.PID ∈ t1.map resultRow.PID :=
          List.mem_map.mpr ⟨b, hb1, hkey.2.symm⟩
        exact (List.nodup_cons.mp (by simpa using hnd)).1 hmem
      subst hab
      have ht : t1 = t2 :=
        sorted_rows_unique t1 t2 hp.cons_inv (List.pairwise_cons.mp hs1).2
          (List.pairwise_cons.mp hs2).2 (List.nodup_cons.mp (by simpa using hnd)).2
      rw [ht]

theorem lookupKey_perm {α : Type} {m m2 : List (Int × α)} (hp : m.Perm m2)
    (hnd : (m.map Prod.fst).Nodup) (k : Int) : lookupKey m k = lookupKey m2 k := by
  have hnd2 : (m2.map Prod.fst).Nodup := ((hp.map Prod.fst).nodup_iff).mp hnd
  cases h1 : lookupKey m k with
  | some v =>
    exact (lookupKey_eq_some_of_mem hnd2 (hp.subset (mem_of_lookupKey_eq_some h1))).symm
  | none =>
    cases h2 : lookupKey m2 k with
    | none => rfl
    | some v =>
      have hcontra :=
        lookupKey_eq_some_of_mem hnd (hp.symm.subset (mem_of_lookupKey_eq_some h2))
      rw [h1] at hcontra
      cases hcontra

/-- C3: `computeResults` output is sorted strictly — descending delta, ties
broken by ascending PID — and is the same list no matter in which order the
two input maps are iterated (permutation of the association lists). -/
theorem C3_sorted_and_map_order_independent (A B A2 B2 : Snapshot)
    (hA : (A.map Prod.fst).Nodup) (hB : (B.map Prod.fst).Nodup)
    (hpA : A.Perm A2) (hpB : B.Perm B2) :
    List.Chain' rowLt (computeResults A B) ∧ computeResults A2 B2 = computeResults A B := by
  constructor
  · have h1 : (computeResults A B).Pairwise rowLe :=
      List.sorted_insertionSort rowLe (A.filterMap (diffRow B))
    have h2 : (computeResults A B).Pairwise (fun a b => a.PID ≠ b.PID) :=
      List.pairwise_map.mp (computeResults_pid_nodup A B hA)
    refine List.Pairwise.chain' ((h1.and h2).imp ?_)
    intro a b hab
    rcases hab.1 with h | h
    · exact Or.inl h
    · exact Or.inr ⟨h.1, lt_of_le_of_ne h.2 hab.2⟩
  · have hA2 : (A2.map Prod.fst).Nodup := ((hpA.map Prod.fst).nodup_iff).mp hA
    have hfeq : diffRow B2 = diffRow B := by
      funext kv
      unfold diffRow
      rw [lookupKey_perm hpB hB kv.1]
    have hperm : (computeResults A2 B2).Perm (computeResults A B) := by
      unfold computeResults
      rw [hfeq]
      exact (List.perm_insertionSort rowLe _).trans
        (((hpA.filterMap (diffRow B)).symm).trans
          (List.perm_insertionSort rowLe _).symm)
    exact sorted_rows_unique _ _ hperm
      (List.sorted_insertionSort rowLe _) (List.sorted_insertionSort rowLe _)
      (computeResults_pid_nodup A2 B2 hA2)

/-- Permutation of the spec's example snapshot A, for the C3 witness. -/
def exSnapA2 : Snapshot := [(200, ⟨5, "b"⟩), (100, ⟨2, "a"⟩)]

/-- Permutation of the spec's example snapshot B, for the C3 witness. -/
def exSnapB2 : Snapshot := [(300, ⟨1, "c"⟩), (100, ⟨7/2, "a"⟩), (200, ⟨5, "b"⟩)]

/-- C3 witness: the theorem applied at the example snapshots and a
permutation of each. -/
theorem C3_sorted_and_map_order_independent_witness :
    ((exSnapA.map Prod.fst).Nodup ∧ (exSnapB.map Prod.fst).Nodup ∧
     exSnapA.Perm exSnapA2 ∧ exSnapB.Perm exSnapB2) ∧
    (List.Chain' rowLt (computeResults exSnapA exSnapB) ∧
     computeResults exSnapA2 exSnapB2 = computeResults exSnapA exSnapB) :=
  ⟨⟨by decide, by decide, by decide, by decide⟩,
   C3_sorted_and_map_order_independent exSnapA exSnapB exSnapA2 exSnapB2
     (by decide) (by decide) (by decide) (by decide)⟩

/-- The anonymous per-PID accumulator struct (`aggregateState`) declared
inside `renderSummaryTable` (render.go).  Go's zero value is `⟨0, ""⟩`. -/
structure aggregateState where
  total : ℚ
  command : String
deriving DecidableEq, Repr

/-- Go map read `aggregates[row.PID]`, yielding the zero value on a
missing key. -/
def aggFetch (m : List (Int × aggregateState)) (pid : Int) : aggregateState :=
  (lookupKey m pid).getD ⟨0, ""⟩

/-- Go map write `aggregates[pid] = v`: replace the binding in place, or
append a new one. -/
def aggStore : List (Int × aggregateState) → Int → aggregateState →
    List (Int × aggregateState)
  | [], pid, v => [(pid, v)]
  | (k2, w) :: rest, pid, v =>
    if k2 = pid then (k2, v) :: rest else (k2, w) :: aggStore rest pid v

/-- The inner loop body of `renderSummaryTable`: fold one result row into
the aggregates map (`entry.total += row.Diff`; first non-empty command
wins). -/
def aggAddRow (m : List (Int × aggregateState)) (row : resultRow) :
    List (Int × aggregateState) :=
  let entry := aggFetch m row.PID
  aggStore m row.PID
    { total := entry.total + row.Diff,
      command := if entry.command = "" then row.Command else entry.command }

/-- The aggregation loops of `renderSummaryTable`: fold every frame's rows
into the aggregates map. -/
def buildAggregates (history : List frameRecord) : List (Int × aggregateState) :=
  history.foldl (fun m frame => frame.Rows.foldl aggAddRow m) []

/-- Sort order of the summary table (render.go): total descending, ties by
ascending PID. -/
def aggLe (a b : aggregateRow) : Prop :=
  b.Total < a.Total ∨ (a.Total = b.Total ∧ a.PID ≤ b.PID)

instance : DecidableRel aggLe := fun a b => by unfold aggLe; exact inferInstance

/-- The row-building phase of `renderSummaryTable` (render.go): aggregate
across frames, compute the per-frame average with the frame count as
divisor, drop entries below the hide-small threshold, sort.  Empty history
short-circuits to the empty payload. -/
def summaryRows (history : List frameRecord) (hideSmall : Bool) : List aggregateRow :=
  if history.length = 0 then []
  else
    List.insertionSort aggLe ((buildAggregates history).filterMap (fun kv =>
      let avg := kv.2.total / (history.length : ℚ)
      if hideSmall = true ∧ kv.2.total < 1 then none
      else some { PID := kv.1, Total := kv.2.total, Average := avg, Command := kv.2.command }))

/-- Spec-side per-frame contribution of a PID: the summed delta of its rows
in that frame, 0 when absent. -/
def pidFrameDelta (pid : Int) (frame : frameRecord) : ℚ :=
  ((frame.Rows.filter (fun r => r.PID == pid)).map resultRow.Diff).sum

/-- Spec-side total of a PID over a history: per-frame deltas summed over
every frame, absence contributing 0. -/
def pidTotal (history : List frameRecord) (pid : Int) : ℚ :=
  (history.map (pidFrameDelta pid)).sum

theorem lookupKey_aggStore (m : List (Int × aggregateState)) (pid : Int)
    (v : aggregateState) (k : Int) :
    lookupKey (aggStore m pid v) k = if pid = k then some v else lookupKey m k := by
  induction m with
  | nil => simp [aggStore, lookupKey]
  | cons kv rest ih =>
    obtain ⟨k2, w⟩ := kv
    by_cases h2 : k2 = pid
    · subst h2
      simp only [aggStore, if_pos rfl, lookupKey]
      by_cases hk : k2 = k
      · rw [if_pos hk, if_pos hk]
      · rw [if_neg hk, if_neg hk, if_neg hk]
    · simp only [aggStore, if_neg h2, lookupKey]
      by_cases hk : k2 = k
      · have hpk : pid ≠ k := fun hh => h2 (hk.trans hh.symm)
        rw [if_pos hk, if_neg hpk, if_pos hk]
      · rw [if_neg hk, if_neg hk, ih]

theorem aggFetch_aggAddRow (m : List (Int × aggregateState)) (row : resultRow)
    (pid : Int) :
    (aggFetch (aggAddRow m row) pid).total =
      (aggFetch m pid).total + (if row.PID = pid then row.Diff else 0) := by
  unfold aggAddRow
  by_cases h : row.PID = pid
  · subst h
    unfold aggFetch
    rw [lookupKey_aggStore, if_pos rfl, if_pos rfl]
    rfl
  · unfold aggFetch
    rw [lookupKey_aggStore, if_neg h, if_neg h, add_zero]

theorem aggRows_foldl_total (pid : Int) :
    ∀ (rows : List resultRow) (m : List (Int × aggregateState)),
      (aggFetch (rows.foldl aggAddRow m) pid).total =
        (aggFetch m pid).total +
          ((rows.filter (fun r => r.PID == pid)).map resultRow.Diff).sum
  | [], m => by simp
  | row :: rest, m => by
    rw [List.foldl_cons, aggRows_foldl_total pid rest (aggAddRow m row),
      aggFetch_aggAddRow]
    by_cases h : row.PID = pid
    · simp only [List.filter_cons, h, beq_self_eq_true, if_pos, List.map_cons,
        List.sum_cons]
      ring
    · rw [if_neg h, add_zero]
      have hb : (row.PID == pid) = false := by simpa using h
      simp [List.filter_cons, hb]

theorem buildAggregates_total (history : List frameRecord) (pid : Int) :
    (aggFetch (buildAggregates history) pid).total = pidTotal history pid := by
  suffices h : ∀ (hs : List frameRecord) (m : List (Int × aggregateState)),
      (aggFetch (hs.foldl (fun m2 frame => frame.Rows.foldl aggAddRow m2) m) pid).total =
        (aggFetch m pid).total + pidTotal hs pid by
    have h0 := h history []
    unfold buildAggregates
    rw [h0]
    simp [aggFetch, lookupKey]
  intro hs
  induction hs with
  | nil =>
    intro m
    simp [pidTotal]
  | cons frame rest ih =>
    intro m
    rw [List.foldl_cons, ih, aggRows_foldl_total]
    unfold pidTotal pidFrameDelta
    simp only [List.map_cons, List.sum_cons]
    ring

theorem mem_keys_aggStore {m : List (Int × aggregateState)} {pid k : Int}
    {v : aggregateState} (h : k ∈ (aggStore m pid v).map Prod.fst) :
    k ∈ m.map Prod.fst ∨ k = pid := by
  induction m with
  | nil =>
    simp only [aggStore, List.map_cons, List.map_nil, List.mem_singleton] at h
    exact Or.inr h
  | cons kv rest ih =>
    obtain ⟨k2, w⟩ := kv
    by_cases h2 : k2 = pid
    · subst h2
      simp only [aggStore, if_pos rfl, List.map_cons] at h
      exact Or.inl h
    · simp only [aggStore, if_neg h2, List.map_cons, List.mem_cons] at h
      rcases h with h | h
      · exact Or.inl (List.mem_cons.mpr (Or.inl h))
      · rcases ih h with h3 | h3
        · exact Or.inl (List.mem_cons.mpr (Or.inr h3))
        · exact Or.inr h3

theorem aggStore_keys_nodup {m : List (Int × aggregateState)} (pid : Int)
    (v : aggregateState) (hnd : (m.map Prod.fst).Nodup) :
    ((aggStore m pid v).map Prod.fst).Nodup := by
  induction m with
  | nil => simp [aggStore]
  | cons kv rest ih =>
    obtain ⟨k2, w⟩ := kv
    rw [List.map_cons] at hnd
    obtain ⟨hni, hnd2⟩ := List.nodup_cons.mp hnd
    by_cases h2 : k2 = pid
    · subst h2
      simp only [aggStore, if_pos rfl, List.map_cons]
      exact List.nodup_cons.mpr ⟨hni, hnd2⟩
    · simp only [aggStore, if_neg h2, List.map_cons]
      refine List.nodup_cons.mpr ⟨?_, ih hnd2⟩
      intro hmem
      rcases mem_keys_aggStore hmem with h | h
      · exact hni h
      · exact h2 h

theorem aggAddRow_keys_nodup {m : List (Int × aggregateState)} (row : resultRow)
    (hnd : (m.map Prod.fst).Nodup) : ((aggAddRow m row).map Prod.fst).Nodup :=
  aggStore_keys_nodup row.PID _ hnd

theorem rowsFold_keys_nodup :
    ∀ (rows : List resultRow) (m : List (Int × aggregateState)),
      (m.map Prod.fst).Nodup → ((rows.foldl aggAddRow m).map Prod.fst).Nodup
  | [], _, hm => hm
  | row :: rest, m, hm =>
    rowsFold_keys_nodup rest (aggAddRow m row) (aggAddRow_keys_nodup row hm)

theorem buildAggregates_keys_nodup (history : List frameRecord) :
    ((buildAggregates history).map Prod.fst).Nodup := by
  suffices h : ∀ (hs : List frameRecord) (m : List (Int × aggregateState)),
      (m.map Prod.fst).Nodup →
      ((hs.foldl (fun m2 frame => frame.Rows.foldl aggAddRow m2) m).map Prod.fst).Nodup by
    exact h history [] (by simp)
  intro hs
  induction hs with
  | nil => intro m hm; exact hm
  | cons frame rest ih =>
    intro m hm
    rw [List.foldl_cons]
    exact ih _ (rowsFold_keys_nodup frame.Rows m hm)

theorem lookupKey_aggAddRow_isSome {m : List (Int × aggregateState)} {k : Int}
    (row : resultRow) (h : (lookupKey m k).isSome) :
    (lookupKey (aggAddRow m row) k).isSome := by
  unfold aggAddRow
  rw [lookupKey_aggStore]
  by_cases hk : row.PID = k
  · rw [if_pos hk]; rfl
  · rw [if_neg hk]; exact h

theorem lookupKey_rowsFold_isSome :
    ∀ (rows : List resultRow) (m : List (Int × aggregateState)) (k : Int),
      (lookupKey m k).isSome → (lookupKey (rows.foldl aggAddRow m) k).isSome
  | [], _, _, h => h
  | row :: rest, _, k, h =>
    lookupKey_rowsFold_isSome rest _ k (lookupKey_aggAddRow_isSome row h)

theorem lookupKey_rowsFold_isSome_of_mem :
    ∀ (rows : List resultRow) (m : List (Int × aggregateState)) {row : resultRow},
      row ∈ rows → (lookupKey (rows.foldl aggAddRow m) row.PID).isSome
  | [], _, _, h => absurd h (List.not_mem_nil _)
  | r2 :: rest, m, row, h => by
    rw [List.foldl_cons]
    rcases List.mem_cons.mp h with h | h
    · subst h
      apply lookupKey_rowsFold_isSome
      unfold aggAddRow
      rw [lookupKey_aggStore, if_pos rfl]
      rfl
    · exact lookupKey_rowsFold_isSome_of_mem rest _ h

theorem lookupKey_histFold_isSome :
    ∀ (hs : List frameRecord) (m : List (Int × aggregateState)) (k : Int),
      (lookupKey m k).isSome →
      (lookupKey (hs.foldl (fun m2 frame => frame.Rows.foldl aggAddRow m2) m) k).isSome
  | [], _, _, h => h
  | frame :: rest, m, k, h =>
    lookupKey_histFold_isSome rest _ k (lookupKey_rowsFold_isSome frame.Rows m k h)

theorem buildAggregates_isSome_of_mem {history : List frameRecord}
    {frame : frameRecord} {row : resultRow} (hf : frame ∈ history)
    (hr : row ∈ frame.Rows) :
    (lookupKey (buildAggregates history) row.PID).isSome := by
  suffices h : ∀ (hs : List frameRecord) (m : List (Int × aggregateState)),
      frame ∈ hs →
      (lookupKey (hs.foldl (fun m2 f => f.Rows.foldl aggAddRow m2) m) row.PID).isSome from
    h history [] hf
  intro hs
  induction hs with
  | nil => intro m hm; cases hm
  | cons f2 rest ih =>
    intro m hm
    rw [List.foldl_cons]
    rcases List.mem_cons.mp hm with h | h
    · subst h
      exact lookupKey_histFold_isSome rest _ _
        (lookupKey_rowsFold_isSome_of_mem _ _ hr)
    · exact ih _ h

theorem mem_summaryRows_iff {history : List frameRecord} {hs : Bool}
    {r : aggregateRow} (hne : history ≠ []) :
    r ∈ summaryRows history hs ↔
      ∃ kv ∈ buildAggregates history, ¬(hs = true ∧ kv.2.total < 1) ∧
        r = ⟨kv.1, kv.2.total, kv.2.total / (history.length : ℚ), kv.2.command⟩ := by
  unfold summaryRows
  rw [if_neg (by simpa using hne)]
  rw [(List.perm_insertionSort aggLe _).mem_iff, List.mem_filterMap]
  constructor
  · rintro ⟨kv, hkv, hsome⟩
    by_cases hc : hs = true ∧ kv.2.total < 1
    · rw [if_pos hc] at hsome
      cases hsome
    · rw [if_neg hc] at hsome
      injection hsome with h2
      exact ⟨kv, hkv, hc, h2.symm⟩
  · rintro ⟨kv, hkv, hc, rfl⟩
    exact ⟨kv, hkv, by rw [if_neg hc]⟩

/-- C4: for a non-empty history of N frames, every aggregate row's Total is
the sum of that PID's per-frame deltas (absence contributing 0), its
Average is Total divided by N (the divisor is always the frame count), and
the hide-small filter removes only rows whose already-computed Total is
below the 1-second threshold, without changing the divisor. -/
theorem C4_aggregation_totals (history : List frameRecord) (hideSmall : Bool)
    (h : history ≠ []) :
    (∀ r ∈ summaryRows history hideSmall,
        r.Total = pidTotal history r.PID ∧
        r.Average = r.Total / (history.length : ℚ)) ∧
    (∀ r ∈ summaryRows history true, 1 ≤ r.Total) ∧
    (∀ frame ∈ history, ∀ row ∈ frame.Rows,
        ¬(hideSmall = true ∧ pidTotal history row.PID < 1) →
        ∃ r ∈ summaryRows history hideSmall,
          r.PID = row.PID ∧ r.Total = pidTotal history row.PID ∧
          r.Average = pidTotal history row.PID / (history.length : ℚ)) := by
  have hval : ∀ kv ∈ buildAggregates history, kv.2.total = pidTotal history kv.1 := by
    intro kv hkv
    have hl : lookupKey (buildAggregates history) kv.1 = some kv.2 :=
      lookupKey_eq_some_of_mem (buildAggregates_keys_nodup history) hkv
    have := buildAggregates_total history kv.1
    rw [aggFetch, hl] at this
    exact this
  refine ⟨?_, ?_, ?_⟩
  · intro r hr
    obtain ⟨kv, hkv, -, rfl⟩ := (mem_summaryRows_iff h).mp hr
    exact ⟨hval kv hkv, rfl⟩
  · intro r hr
    obtain ⟨kv, hkv, hc, rfl⟩ := (mem_summaryRows_iff h).mp hr
    exact not_lt.mp (fun hlt => hc ⟨rfl, hlt⟩)
  · intro frame hf row hrow hpass
    have hsome := buildAggregates_isSome_of_mem hf hrow
    obtain ⟨entry, hentry⟩ := Option.isSome_iff_exists.mp hsome
    have htot : entry.total = pidTotal history row.PID := by
      have := buildAggregates_total history row.PID
      rw [aggFetch, hentry] at this
      exact this
    refine ⟨⟨row.PID, entry.total, entry.total / (history.length : ℚ), entry.command⟩,
      (mem_summaryRows_iff h).mpr
        ⟨(row.PID, entry), mem_of_lookupKey_eq_some hentry, ?_, rfl⟩, rfl, htot, by rw [htot]⟩
    rw [htot]
    exact hpass

/-- Concrete two-frame history for the C4 witness. -/
def exHistory : List frameRecord := [⟨1, [⟨5, 2, "x"⟩]⟩, ⟨2, [⟨5, 1/2, "x"⟩, ⟨7, 3, "y"⟩]⟩]

/-- C4 witness: the theorem applied to a concrete two-frame history. -/
theorem C4_aggregation_totals_witness :
    (exHistory ≠ []) ∧
    ((∀ r ∈ summaryRows exHistory false,
        r.Total = pidTotal exHistory r.PID ∧
        r.Average = r.Total / (exHistory.length : ℚ)) ∧
     (∀ r ∈ summaryRows exHistory true, 1 ≤ r.Total) ∧
     (∀ frame ∈ exHistory, ∀ row ∈ frame.Rows,
        ¬(false = true ∧ pidTotal exHistory row.PID < 1) →
        ∃ r ∈ summaryRows exHistory false,
          r.PID = row.PID ∧ r.Total = pidTotal exHistory row.PID ∧
          r.Average = pidTotal exHistory row.PID / (exHistory.length : ℚ))) :=
  ⟨by decide, C4_aggregation_totals exHistory false (by decide)⟩

/-- One-decimal fixed-point rendering, modelling Go's `%.1f` verb (the
rounding of exact ties differs from Go's round-half-even; no theorem below
depends on rendered digits). -/
def fmt1 (q : ℚ) : String :=
  let sign := if q < 0 then "-" else ""
  let n := (⌊|q| * 10 + 1/2⌋).toNat
  sign ++ toString (n / 10) ++ "." ++ toString (n % 10)

/-- Go's `%02d` for the duration fields. -/
def pad2 (n : Int) : String :=
  if n < 10 then "0" ++ toString n else toString n

/-- `formatDuration` from render.go: fractional seconds to HH:MM:SS; Go's
`int(seconds)` truncates toward zero, as do `tdiv`/`tmod`. -/
def formatDuration (seconds : ℚ) : String :=
  let total := seconds.num.tdiv (seconds.den : Int)
  let hours := total.tdiv 3600
  let minutes := (total.tmod 3600).tdiv 60
  let secs := total.tmod 60
  pad2 hours ++ ":" ++ pad2 minutes ++ ":" ++ pad2 secs

/-- `baseCommand` from render.go: basename of the first whitespace field. -/
def baseCommand (command : String) : String :=
  let fields := (command.split Char.isWhitespace).filter (fun s => !s.isEmpty)
  match fields with
  | [] => command
  | f :: _ => (f.splitOn "/").getLastD ""

/-- `sanitizeCommand` from render.go. -/
def sanitizeCommand (command : String) (hidePaths : Bool) : String :=
  let command := if hidePaths then baseCommand command else command
  (command.replace "\t" " ").replace "\n" " "

/-- One line of the frame table (the loop body of `renderTable`). -/
def renderRowLine (hidePaths : Bool) (row : resultRow) : String :=
  toString row.PID ++ "\t" ++ fmt1 row.Diff ++ "\t" ++ formatDuration row.Diff ++
    "\t" ++ sanitizeCommand row.Command hidePaths

/-- `renderTable` from render.go as its list of emitted lines: drop rows
below 1 CPU-second when hideSmall, then emit at most 500 rows. -/
def renderTableLines (rows : List resultRow) (hideSmall hidePaths : Bool) :
    List String :=
  let filtered := rows.filter (fun row => !(hideSmall && decide (row.Diff < 1)))
  let limit := if filtered.length > 500 then 500 else filtered.length
  (filtered.take limit).map (renderRowLine hidePaths)

/-- `renderTable`'s string payload: every line newline-terminated. -/
def renderTable (rows : List resultRow) (hideSmall hidePaths : Bool) : String :=
  String.join ((renderTableLines rows hideSmall hidePaths).map (fun l => l ++ "\n"))

/-- One line of the summary table (the loop body of `renderSummaryTable`). -/
def renderAggLine (hidePaths : Bool) (row : aggregateRow) : String :=
  toString row.PID ++ "\t" ++ fmt1 row.Total ++ "\t" ++ fmt1 row.Average ++ "\t" ++
    formatDuration row.Total ++ "\t" ++ formatDuration row.Average ++ "\t" ++
    sanitizeCommand row.Command hidePaths

/-- `renderSummaryTable` from render.go as its list of emitted lines: the
sorted, filtered aggregate rows (`summaryRows`), at most 500 of them. -/
def renderSummaryLines (history : List frameRecord) (hideSmall hidePaths : Bool) :
    List String :=
  let rows := summaryRows history hideSmall
  let limit := if rows.length > 500 then 500 else rows.length
  (rows.take limit).map (renderAggLine hidePaths)

/-- `renderSummaryTable`'s string payload. -/
def renderSummaryTable (history : List frameRecord) (hideSmall hidePaths : Bool) :
    String :=
  String.join ((renderSummaryLines history hideSmall hidePaths).map (fun l => l ++ "\n"))

/-- `monitorState` from model.go.  The mutex is omitted (each critical
section of the source becomes one pure transition below); the
`context.CancelFunc` handle is `cancel : Bool`, "a handle is present". -/
structure MonitorState where
  running : Bool
  hideSmall : Bool
  hidePaths : Bool
  frameSeconds : ℚ
  frameIndex : Int
  runID : Int
  cancel : Bool
  history : List frameRecord
  liveRows : List resultRow
  selectedHistoryIdx : Int
  viewingCurrent : Bool
  autoFollowLatestComplete : Bool
  status : String
deriving DecidableEq, Repr

/-- The package-level `state` initialiser from model.go: Go zero values
plus the three explicit defaults. -/
def initState : MonitorState :=
  { running := false, hideSmall := true, hidePaths := false, frameSeconds := 15,
    frameIndex := 0, runID := 0, cancel := false, history := [], liveRows := [],
    selectedHistoryIdx := 0, viewingCurrent := false,
    autoFollowLatestComplete := false, status := "" }

/-- `cloneRows` from state.go: a defensive copy — the identity on values. -/
def cloneRows (rows : List resultRow) : List resultRow := rows

/-- `currentViewLabelLocked` from state.go. -/
def currentViewLabel (s : MonitorState) : String :=
  if s.viewingCurrent then
    if s.running then "Current Frame " ++ toString s.frameIndex else "Current Frame"
  else if 0 ≤ s.selectedHistoryIdx ∧ s.selectedHistoryIdx < (s.history.length : Int) then
    "Frame " ++ toString ((s.history.getD s.selectedHistoryIdx.toNat ⟨0, []⟩).Index)
  else "Latest Frame"

/-- `currentRowsLocked` from state.go: live rows, else the selected history
frame, else the newest completed frame, else live rows. -/
def currentRows (s : MonitorState) : List resultRow :=
  if s.viewingCurrent then cloneRows s.liveRows
  else if 0 ≤ s.selectedHistoryIdx ∧ s.selectedHistoryIdx < (s.history.length : Int) then
    cloneRows (s.history.getD s.selectedHistoryIdx.toNat ⟨0, []⟩).Rows
  else if s.history.length > 0 then cloneRows (s.history.getLastD ⟨0, []⟩).Rows
  else cloneRows s.liveRows

/-- `joinLines` from state.go. -/
def joinLines (lines : List String) : String := String.intercalate "\n" lines

/-- `historyPayloadLocked` from state.go: the popup labels and the selected
popup index (-1 when none is selected). -/
def historyPayload (s : MonitorState) : String × Int :=
  let items := s.history.map (fun f => "Frame " ++ toString f.Index)
  let selected : Int :=
    (List.range s.history.length).foldl
      (fun sel i =>
        if !s.viewingCurrent && s.selectedHistoryIdx == (i : Int) then (i : Int) else sel)
      (-1)
  let out :=
    if s.running then
      (items ++ ["Current Frame " ++ toString s.frameIndex ++ " (in progress)"],
       if s.viewingCurrent then (items.length : Int) else selected)
    else (items, selected)
  (joinLines out.1, out.2)

/-- The payload `postUpdate` (ui_bridge.go) hands to Cocoa `UpdateResults`. -/
structure UIPayload where
  status : String
  table : String
  summary : String
  historyText : String
  selectedIndex : Int
deriving DecidableEq, Repr

/-- The observable boundary actions of the control and worker functions:
invoking the cancellation handle, persisting config, launching a sampling
goroutine, and the two cgo deliveries. -/
inductive effect where
  | cancelRun : effect
  | saveCfg : effect
  | launchMonitor (runID : Int) (frameSeconds : ℚ) : effect
  | pushUpdate (runID : Int) (payload : UIPayload) : effect
  | postErrorMsg (runID : Int) (message : String) : effect
deriving DecidableEq, Repr

/-- `isCurrentRun` from ui_bridge.go: run id 0 is "always current". -/
def isCurrentRun (runID : Int) (s : MonitorState) : Bool :=
  runID == 0 || s.runID == runID

/-- `pushUI` + `postUpdate` from ui_bridge.go: render the payloads from the
state and deliver them unless the tagged run id is stale. -/
def pushUIEff (runID : Int) (s : MonitorState) : List effect :=
  let rows := currentRows s
  let table := renderTable rows s.hideSmall s.hidePaths
  let summary := renderSummaryTable s.history s.hideSmall s.hidePaths
  let hp := historyPayload s
  if isCurrentRun runID s then
    [effect.pushUpdate runID ⟨s.status, table, summary, hp.1, hp.2⟩]
  else []

/-- `postError` from ui_bridge.go: deliver unless the run id is stale. -/
def postErrorF (runID : Int) (message : String) (s : MonitorState) : List effect :=
  if isCurrentRun runID s then [effect.postErrorMsg runID message] else []

/-- `GoStartMonitoring` from controls.go: reject a non-positive frame
length, otherwise cancel any prior run, reset all frame state under a new
run id and launch a sampling loop bound to it. -/
def GoStartMonitoring (frameSeconds : ℚ) (s : MonitorState) :
    MonitorState × List effect :=
  if frameSeconds ≤ 0 then
    (s, postErrorF 0 "Frame length must be greater than zero seconds." s)
  else
    let cancelEffs := if s.cancel then [effect.cancelRun] else []
    let runID := s.runID + 1
    let s1 : MonitorState :=
      { s with
        runID := runID, cancel := true, running := true,
        frameSeconds := frameSeconds, frameIndex := 1, history := [], liveRows := [],
        selectedHistoryIdx := -1, viewingCurrent := true,
        autoFollowLatestComplete := true,
        status := "Running. Frame 1 of " ++ fmt1 frameSeconds ++ "s started." }
    (s1, cancelEffs ++ [effect.saveCfg, effect.launchMonitor runID frameSeconds] ++
      pushUIEff runID s1)

/-- `GoStopMonitoring` from controls.go: bump the run id, drop the handle,
mark not running, invoke the handle if one was held, then land the view on
the last completed frame when auto-follow is on. -/
def GoStopMonitoring (s : MonitorState) : MonitorState × List effect :=
  let hadCancel := s.cancel
  let s1 : MonitorState :=
    { s with
      runID := s.runID + 1, cancel := false, running := false }
  let cancelEffs := if hadCancel then [effect.cancelRun] else []
  let s2 : MonitorState := { s1 with status := "Monitoring stopped." }
  let s3 : MonitorState :=
    if s2.history.length > 0 ∧ s2.autoFollowLatestComplete = true then
      { s2 with
        viewingCurrent := false,
        selectedHistoryIdx := (s2.history.length : Int) - 1 }
    else s2
  (s3, cancelEffs ++ pushUIEff 0 s3)

/-- `GoSelectFrame` from controls.go: map a popup index to the live frame
or a history entry; other indices fall through to the ignoring default. -/
def GoSelectFrame (index : Int) (s : MonitorState) : MonitorState × List effect :=
  let completedCount : Int := s.history.length
  let currentIndex : Int := if s.running then completedCount else -1
  if index = currentIndex then
    let s1 : MonitorState :=
      { s with
        viewingCurrent := true, selectedHistoryIdx := -1,
        autoFollowLatestComplete := false }
    (s1, pushUIEff 0 s1)
  else if 0 ≤ index ∧ index < completedCount then
    let s1 : MonitorState :=
      { s with
        viewingCurrent := false, selectedHistoryIdx := index,
        autoFollowLatestComplete := index == completedCount - 1 }
    (s1, pushUIEff 0 s1)
  else (s, [])

/-- `stopFromWorker` from monitor.go: mark the run stopped, a no-op when
the worker's run id is stale. -/
def stopFromWorker (runID : Int) (s : MonitorState) : MonitorState :=
  if s.runID ≠ runID then s else { s with running := false, cancel := false }

/-- `buildStatusLocked` from render.go (the clock readings are passed in). -/
def buildStatus (s : MonitorState) (frameSeconds frameStart now : ℚ)
    (rows : List resultRow) : String :=
  let elapsed0 := now - frameStart
  let elapsed := if elapsed0 < 0 then 0 else elapsed0
  let remaining0 := frameSeconds - elapsed
  let remaining := if remaining0 < 0 then 0 else remaining0
  let visibleRows :=
    if s.hideSmall then (rows.filter (fun row => decide (1 ≤ row.Diff))).length
    else rows.length
  "Running. Frame " ++ toString s.frameIndex ++ " | length " ++ fmt1 frameSeconds ++
    "s | elapsed " ++ fmt1 elapsed ++ "s | remaining " ++ fmt1 remaining ++ "s | " ++
    toString visibleRows ++ " visible processes | viewing " ++ currentViewLabel s

/-- The frame-finalisation critical section of `updateFrame` (monitor.go):
append the completed frame, evict the oldest entry past the 1000-entry cap
(adjusting a positive selected index down by one), auto-follow the newest
frame when enabled or on the very first completion, advance the frame
index, clear the live rows.  A no-op when the run was already stopped. -/
def frameCompletion (frameSeconds : ℚ) (results : List resultRow)
    (s : MonitorState) : MonitorState :=
  if !s.running then s
  else
    let h1 := s.history ++ [{ Index := s.frameIndex, Rows := cloneRows results }]
    let evict := h1.length > 1000
    let h2 := if evict then h1.tail else h1
    let sel1 :=
      if evict then
        if s.selectedHistoryIdx > 0 then s.selectedHistoryIdx - 1
        else s.selectedHistoryIdx
      else s.selectedHistoryIdx
    let follow := s.autoFollowLatestComplete || h2.length == 1
    { s with
      history := h2,
      viewingCurrent := if follow then false else s.viewingCurrent,
      selectedHistoryIdx := if follow then (h2.length : Int) - 1 else sel1,
      autoFollowLatestComplete := if follow then true else s.autoFollowLatestComplete,
      frameIndex := s.frameIndex + 1,
      liveRows := [],
      status := "Running. Frame " ++ toString (s.frameIndex + 1) ++
        " started. Length " ++ fmt1 frameSeconds ++ "s." }

/-- The locals of `runMonitor` that persist across ticks. -/
structure loopState where
  baseline : Snapshot
  frameStart : ℚ
deriving DecidableEq, Repr

/-- One tick of `updateFrame` (monitor.go): `none` models a failed snapshot
(the error return and the caller's `postError`), `some current` a
successful one.  Yields the new shared state, the new loop locals, and the
tick's boundary effects. -/
def updateFrameM (runID : Int) (frameSeconds : ℚ) (ls : loopState) (now : ℚ)
    (snapRes : Option Snapshot) (s : MonitorState) :
    MonitorState × loopState × List effect :=
  match snapRes with
  | none => (s, ls, postErrorF runID "Snapshot failed" s)
  | some current =>
    let results := computeResults ls.baseline current
    let s1 := { s with
                liveRows := cloneRows results,
                status := buildStatus s frameSeconds ls.frameStart now results }
    let effs1 := pushUIEff runID s1
    if frameSeconds ≤ now - ls.frameStart then
      if s1.running then
        let s2 := frameCompletion frameSeconds results s1
        (s2, { baseline := current, frameStart := now }, effs1 ++ pushUIEff runID s2)
      else (s1, ls, effs1)
    else (s1, ls, effs1)

/-- The ticking loop of `runMonitor`: one list entry per tick received
before cancellation, carrying the tick's timestamp and snapshot outcome. -/
def runTicks (runID : Int) (frameSeconds : ℚ) :
    loopState → List (ℚ × Option Snapshot) → MonitorState → MonitorState × List effect
  | _, [], s => (s, [])
  | ls, (now, res) :: rest, s =>
    let step := updateFrameM runID frameSeconds ls now res s
    let tail := runTicks runID frameSeconds step.2.1 rest step.1
    (tail.1, step.2.2 ++ tail.2)

/-- `runMonitor` from monitor.go over an explicit schedule: the baseline
snapshot outcome, then the synchronous first `updateFrame` and the later
ticks (cancellation = the end of the list).  A failed baseline reports the
error, marks the run stopped via `stopFromWorker`, and exits without ever
entering the loop.  Go appends the underlying error's text to the two
failure messages; with failures modelled as `none` the model keeps their
fixed prefixes. -/
def runMonitorModel (runID : Int) (frameSeconds : ℚ) (baselineRes : Option Snapshot)
    (startTime : ℚ) (ticks : List (ℚ × Option Snapshot)) (s : MonitorState) :
    MonitorState × List effect :=
  match baselineRes with
  | none => (stopFromWorker runID s, postErrorF runID "Initial snapshot failed" s)
  | some baseline =>
    runTicks runID frameSeconds { baseline := baseline, frameStart := startTime } ticks s

/-- C8: Start with a non-positive frame length reports a validation error
to the output boundary, performs no state mutation (in particular the
running flag keeps its value, false in the idle state), and launches no
sampling loop. -/
theorem C8_start_validation (interval : ℚ) (s : MonitorState) (h : interval ≤ 0) :
    (GoStartMonitoring interval s).1 = s ∧
    (GoStartMonitoring interval s).2 =
      [effect.postErrorMsg 0 "Frame length must be greater than zero seconds."] ∧
    (∀ rid fs, effect.launchMonitor rid fs ∉ (GoStartMonitoring interval s).2) := by
  have h2 : (GoStartMonitoring interval s).2 =
      [effect.postErrorMsg 0 "Frame length must be greater than zero seconds."] := by
    unfold GoStartMonitoring
    rw [if_pos h]
    rfl
  have h1 : (GoStartMonitoring interval s).1 = s := by
    unfold GoStartMonitoring
    rw [if_pos h]
  refine ⟨h1, h2, ?_⟩
  intro rid fs hmem
  rw [h2] at hmem
  simp at hmem

/-- C8 witness: Start(0) from the idle initial state. -/
theorem C8_start_validation_witness :
    ((0 : ℚ) ≤ 0) ∧
    ((GoStartMonitoring 0 initState).1 = initState ∧
     (GoStartMonitoring 0 initState).2 =
       [effect.postErrorMsg 0 "Frame length must be greater than zero seconds."] ∧
     (∀ rid fs, effect.launchMonitor rid fs ∉ (GoStartMonitoring 0 initState).2)) :=
  ⟨by decide, C8_start_validation 0 initState (by decide)⟩

/-- C6 counterexample: in the idle initial state (running already false,
no cancellation handle) Stop is not a state-preserving no-op — it bumps
the run id and rewrites the status text. -/
theorem C6_stop_counterexample :
    initState.running = false ∧ initState.cancel = false ∧
    (GoStopMonitoring initState).1 ≠ initState := by decide

/-- C6 amended: Stop while already stopped invokes no cancellation (the
handle is nil-checked) and leaves running, history, live rows, frame
fields and display toggles unchanged; but it is not a complete no-op: it
still increments runID, sets the status text, and (when auto-follow is on
and history non-empty) re-pins the selection to the last history entry. -/
theorem C6_stop_idempotent_amended (s : MonitorState) (_h1 : s.running = false)
    (h2 : s.cancel = false) :
    effect.cancelRun ∉ (GoStopMonitoring s).2 ∧
    (GoStopMonitoring s).1.running = false ∧
    (GoStopMonitoring s).1.history = s.history ∧
    (GoStopMonitoring s).1.liveRows = s.liveRows ∧
    (GoStopMonitoring s).1.frameIndex = s.frameIndex ∧
    (GoStopMonitoring s).1.frameSeconds = s.frameSeconds ∧
    (GoStopMonitoring s).1.hideSmall = s.hideSmall ∧
    (GoStopMonitoring s).1.hidePaths = s.hidePaths ∧
    (GoStopMonitoring s).1.autoFollowLatestComplete = s.autoFollowLatestComplete ∧
    (GoStopMonitoring s).1.runID = s.runID + 1 ∧
    (GoStopMonitoring s).1.status = "Monitoring stopped." ∧
    (s.autoFollowLatestComplete = true → s.history ≠ [] →
      (GoStopMonitoring s).1.viewingCurrent = false ∧
      (GoStopMonitoring s).1.selectedHistoryIdx = (s.history.length : Int) - 1) ∧
    (¬(s.autoFollowLatestComplete = true ∧ s.history ≠ []) →
      (GoStopMonitoring s).1.viewingCurrent = s.viewingCurrent ∧
      (GoStopMonitoring s).1.selectedHistoryIdx = s.selectedHistoryIdx) := by
  have hpos : 0 < s.history.length ↔ s.history ≠ [] := List.length_pos
  by_cases hc : s.history.length > 0 ∧ s.autoFollowLatestComplete = true
  · simp [GoStopMonitoring, h2, hc, pushUIEff, isCurrentRun, hc.2, hpos.mp hc.1]
  · have hc2 : ¬(s.autoFollowLatestComplete = true ∧ s.history ≠ []) := by
      intro hh
      exact hc ⟨hpos.mpr hh.2, hh.1⟩
    simp only [GoStopMonitoring, h2, hc, pushUIEff, isCurrentRun]
    simp [hc]
    intro haf hne
    exact absurd ⟨hpos.mpr hne, haf⟩ hc

/-- C6 witness: Stop applied to the idle initial state. -/
theorem C6_stop_idempotent_amended_witness :
    (initState.running = false) ∧ (initState.cancel = false) ∧
    (effect.cancelRun ∉ (GoStopMonitoring initState).2 ∧
     (GoStopMonitoring initState).1.running = false ∧
     (GoStopMonitoring initState).1.history = initState.history ∧
     (GoStopMonitoring initState).1.liveRows = initState.liveRows ∧
     (GoStopMonitoring initState).1.frameIndex = initState.frameIndex ∧
     (GoStopMonitoring initState).1.frameSeconds = initState.frameSeconds ∧
     (GoStopMonitoring initState).1.hideSmall = initState.hideSmall ∧
     (GoStopMonitoring initState).1.hidePaths = initState.hidePaths ∧
     (GoStopMonitoring initState).1.autoFollowLatestComplete =
       initState.autoFollowLatestComplete ∧
     (GoStopMonitoring initState).1.runID = initState.runID + 1 ∧
     (GoStopMonitoring initState).1.status = "Monitoring stopped." ∧
     (initState.autoFollowLatestComplete = true → initState.history ≠ [] →
       (GoStopMonitoring initState).1.viewingCurrent = false ∧
       (GoStopMonitoring initState).1.selectedHistoryIdx =
         (initState.history.length : Int) - 1) ∧
     (¬(initState.autoFollowLatestComplete = true ∧ initState.history ≠ []) →
       (GoStopMonitoring initState).1.viewingCurrent = initState.viewingCurrent ∧
       (GoStopMonitoring initState).1.selectedHistoryIdx =
         initState.selectedHistoryIdx)) :=
  ⟨by decide, by decide, C6_stop_idempotent_amended initState (by decide) (by decide)⟩

/-- Concrete state for the C7 failing input: monitoring stopped, three
completed frames, the newest selected with auto-follow on. -/
def c7State : MonitorState :=
  { initState with
    history := [⟨1, []⟩, ⟨2, []⟩, ⟨3, []⟩], running := false,
    viewingCurrent := false, selectedHistoryIdx := 2,
    autoFollowLatestComplete := true }

/-- C7: the out-of-range index -1, sent while monitoring is stopped, is
not ignored: the switch's first case (`index == currentIndex`) matches
because `currentIndex` is the sentinel -1 when no run is active, so the
state is mutated — the view jumps to the (non-existent) live frame and
auto-follow is cleared — and an output push fires.  This contradicts both
the claim and the function's own comment ("Out-of-range indices are
ignored"); a genuinely invalid positive index (5 with 3 frames) is
correctly ignored with no push. -/
theorem C7_select_frame_minus_one_mutates :
    c7State.running = false ∧ c7State.history.length = 3 ∧
    (GoSelectFrame (-1) c7State).1 ≠ c7State ∧
    (GoSelectFrame (-1) c7State).1.viewingCurrent = true ∧
    (GoSelectFrame (-1) c7State).1.autoFollowLatestComplete = false ∧
    (GoSelectFrame (-1) c7State).2 ≠ [] ∧
    (GoSelectFrame 5 c7State).1 = c7State ∧ (GoSelectFrame 5 c7State).2 = [] := by
  decide

/-- Post-Start state of the C1 trace (run id 1). -/
def c1AfterFirstStart : MonitorState := (GoStartMonitoring 1 initState).1

/-- The C1 trace after the second Start (run id 2). -/
def c1AfterSecondStart : MonitorState := (GoStartMonitoring 1 c1AfterFirstStart).1

/-- Baseline snapshot held by the in-flight run-1 worker. -/
def c1Baseline : Snapshot := [(7, ⟨0, "a"⟩)]

/-- Snapshot taken by the run-1 worker after the second Start. -/
def c1Current : Snapshot := [(7, ⟨2, "a"⟩)]

/-- C1: the liveRows/status store at the top of `updateFrame` performs no
run-id comparison (only the output pushes via `postUpdate`/`postError` and
`stopFromWorker` compare run ids), so after a Start immediately followed
by a second Start, the run-1 worker's in-flight `updateFrame` write is
observable in the resulting state: liveRows hold the stale worker's rows
while `state.runID = 2`.  The same worker's output push is correctly
suppressed by `isCurrentRun`. -/
theorem C1_stale_write_observable :
    c1AfterSecondStart.runID = 2 ∧ c1AfterSecondStart.liveRows = [] ∧
    (updateFrameM 1 1 ⟨c1Baseline, 0⟩ 0 (some c1Current) c1AfterSecondStart).1.runID = 2 ∧
    (updateFrameM 1 1 ⟨c1Baseline, 0⟩ 0 (some c1Current) c1AfterSecondStart).1.liveRows =
      [⟨7, 2, "a"⟩] ∧
    (updateFrameM 1 1 ⟨c1Baseline, 0⟩ 0 (some c1Current) c1AfterSecondStart).2.2 = [] := by
  decide

/-- The history invariant of a run: bounded length, strictly increasing
Index fields, all below the index of the frame in progress. -/
def historyInv (s : MonitorState) : Prop :=
  s.history.length ≤ 1000 ∧
  List.Chain' (fun a b => a.Index < b.Index) s.history ∧
  ∀ f ∈ s.history, f.Index < s.frameIndex

theorem frameCompletion_inv (frameSeconds : ℚ) (rows : List resultRow)
    (s : MonitorState) (h : historyInv s) :
    historyInv (frameCompletion frameSeconds rows s) := by
  obtain ⟨hlen, hchain, hfresh⟩ := h
  cases hrun : s.running with
  | false =>
    simp only [frameCompletion, hrun, Bool.not_false, if_true]
    exact ⟨hlen, hchain, hfresh⟩
  | true =>
    have hnew : ∀ f ∈ s.history ++
        [({ Index := s.frameIndex, Rows := cloneRows rows } : frameRecord)],
        f.Index < s.frameIndex + 1 := by
      intro f hf
      rcases List.mem_append.mp hf with hm | hm
      · exact lt_trans (hfresh f hm) (lt_add_one _)
      · rw [List.mem_singleton.mp hm]
        exact lt_add_one _
    have hchain1 : List.Chain' (fun a b => a.Index < b.Index)
        (s.history ++ [({ Index := s.frameIndex, Rows := cloneRows rows } : frameRecord)]) := by
      apply List.Chain'.append hchain (List.chain'_singleton _)
      intro x hx y hy
      have hxmem : x ∈ s.history := by
        cases hhist : s.history with
        | nil =>
          rw [hhist] at hx
          simp at hx
        | cons a t =>
          rw [hhist] at hx
          exact List.mem_of_mem_getLast? hx
      have hyv : ({ Index := s.frameIndex, Rows := cloneRows rows } : frameRecord) = y := by
        simpa using hy
      rw [← hyv]
      exact hfresh x hxmem
    simp only [frameCompletion, hrun, Bool.not_true, Bool.false_eq_true, if_false]
    by_cases hev :
        (s.history ++ [({ Index := s.frameIndex, Rows := cloneRows rows } : frameRecord)]).length > 1000
    · simp only [hev, if_true, if_pos]
      refine ⟨?_, ?_, ?_⟩
      · rw [List.length_tail, List.length_append]
        simp only [List.length_singleton]
        omega
      · exact hchain1.tail
      · intro f hf
        exact hnew f ((List.tail_sublist _).subset hf)
    · simp only [hev, if_false, if_neg]
      refine ⟨?_, hchain1, hnew⟩
      rw [List.length_append] at hev ⊢
      simp only [List.length_singleton] at hev ⊢
      omega

theorem frameCompletion_evict_step (frameSeconds : ℚ) (rows : List resultRow)
    (s : MonitorState) (hrun : s.running = true) (hlen : s.history.length = 1000) :
    (frameCompletion frameSeconds rows s).history =
      s.history.tail ++ [{ Index := s.frameIndex, Rows := rows }] ∧
    (s.autoFollowLatestComplete = false → 0 < s.selectedHistoryIdx →
      (frameCompletion frameSeconds rows s).selectedHistoryIdx =
        s.selectedHistoryIdx - 1) ∧
    (s.autoFollowLatestComplete = true →
      (frameCompletion frameSeconds rows s).selectedHistoryIdx =
        ((frameCompletion frameSeconds rows s).history.length : Int) - 1) := by
  have hne : s.history ≠ [] := by
    intro h0
    rw [h0] at hlen
    simp at hlen
  have htail : (s.history ++
      [({ Index := s.frameIndex, Rows := cloneRows rows } : frameRecord)]).tail =
      s.history.tail ++ [({ Index := s.frameIndex, Rows := cloneRows rows } : frameRecord)] := by
    cases hh : s.history with
    | nil => exact absurd hh hne
    | cons a t => rfl
  have hev : (s.history ++
      [({ Index := s.frameIndex, Rows := cloneRows rows } : frameRecord)]).length > 1000 := by
    rw [List.length_append, hlen]
    simp
  have h2len : (s.history.tail ++
      [({ Index := s.frameIndex, Rows := cloneRows rows } : frameRecord)]).length = 1000 := by
    rw [List.length_append, List.length_tail, hlen]
    simp
  simp only [frameCompletion, hrun, Bool.not_true, Bool.false_eq_true, if_false,
    hev, if_true, htail, h2len]
  refine ⟨rfl, ?_, ?_⟩
  · intro haf hsel
    simp only [haf, Bool.false_or, h2len]
    have : ((1000 : Nat) == (1 : Nat)) = false := by decide
    rw [this]
    simp only [Bool.false_eq_true, if_false]
    rw [if_pos hsel]
  · intro haf
    simp only [haf, Bool.true_or, if_true]

/-- C5: starting from any state satisfying the history invariant (the
post-Start state in particular), any number of FrameCompletion events
keeps the history length at most 1000 and the Index fields strictly
increasing; a completion firing with a full 1000-entry history evicts the
oldest entry FIFO, decrements a positive selected index by one when
auto-follow is off, and re-pins the selection to the newest entry when
auto-follow is on. -/
theorem C5_history_bound (s : MonitorState) (frameSeconds : ℚ)
    (batches : List (List resultRow)) (hinv : historyInv s) :
    ((batches.foldl (fun st rows => frameCompletion frameSeconds rows st) s).history.length
      ≤ 1000) ∧
    List.Chain' (fun a b => a.Index < b.Index)
      (batches.foldl (fun st rows => frameCompletion frameSeconds rows st) s).history ∧
    (∀ rows, s.running = true → s.history.length = 1000 →
      (frameCompletion frameSeconds rows s).history =
        s.history.tail ++ [{ Index := s.frameIndex, Rows := rows }] ∧
      (s.autoFollowLatestComplete = false → 0 < s.selectedHistoryIdx →
        (frameCompletion frameSeconds rows s).selectedHistoryIdx =
          s.selectedHistoryIdx - 1) ∧
      (s.autoFollowLatestComplete = true →
        (frameCompletion frameSeconds rows s).selectedHistoryIdx =
          ((frameCompletion frameSeconds rows s).history.length : Int) - 1)) := by
  have hfold : ∀ (bs : List (List resultRow)) (st : MonitorState), historyInv st →
      historyInv (bs.foldl (fun st2 rows => frameCompletion frameSeconds rows st2) st) := by
    intro bs
    induction bs with
    | nil => intro st h; exact h
    | cons b rest ih =>
      intro st h
      rw [List.foldl_cons]
      exact ih _ (frameCompletion_inv frameSeconds b st h)
  obtain ⟨hl, hc, -⟩ := hfold batches s hinv
  exact ⟨hl, hc, fun rows hrun hlen =>
    frameCompletion_evict_step frameSeconds rows s hrun hlen⟩

/-- C5 witness: two completions from the post-Start state (run id 1). -/
theorem C5_history_bound_witness :
    historyInv c1AfterFirstStart ∧
    ((([[⟨9, 1, "p"⟩], []].foldl
        (fun st rows => frameCompletion 1 rows st) c1AfterFirstStart).history.length
      ≤ 1000) ∧
     List.Chain' (fun a b => a.Index < b.Index)
       ([[⟨9, 1, "p"⟩], []].foldl
         (fun st rows => frameCompletion 1 rows st) c1AfterFirstStart).history ∧
     (∀ rows, c1AfterFirstStart.running = true → c1AfterFirstStart.history.length = 1000 →
       (frameCompletion 1 rows c1AfterFirstStart).history =
         c1AfterFirstStart.history.tail ++
           [{ Index := c1AfterFirstStart.frameIndex, Rows := rows }] ∧
       (c1AfterFirstStart.autoFollowLatestComplete = false →
         0 < c1AfterFirstStart.selectedHistoryIdx →
         (frameCompletion 1 rows c1AfterFirstStart).selectedHistoryIdx =
           c1AfterFirstStart.selectedHistoryIdx - 1) ∧
       (c1AfterFirstStart.autoFollowLatestComplete = true →
         (frameCompletion 1 rows c1AfterFirstStart).selectedHistoryIdx =
           ((frameCompletion 1 rows c1AfterFirstStart).history.length : Int) - 1))) :=
  ⟨⟨by decide, by decide, by decide⟩,
   C5_history_bound c1AfterFirstStart 1 [[⟨9, 1, "p"⟩], []]
     ⟨by decide, by decide, by decide⟩⟩

/-- C9: a failed baseline snapshot is fatal — the error is reported, the
run is marked stopped via `stopFromWorker`, and no tick is ever processed;
a failed snapshot on a later tick is non-fatal — the error is reported,
that tick changes neither the shared state nor the loop locals, and the
loop continues with the remaining ticks. -/
theorem C9_snapshot_failure_handling (runID : Int) (frameSeconds startTime : ℚ)
    (s : MonitorState) (h : s.runID = runID) :
    (∀ ticks, runMonitorModel runID frameSeconds none startTime ticks s =
      (stopFromWorker runID s, [effect.postErrorMsg runID "Initial snapshot failed"])) ∧
    (∀ ticks,
      (runMonitorModel runID frameSeconds none startTime ticks s).1.running = false) ∧
    (∀ ls now, updateFrameM runID frameSeconds ls now none s =
      (s, ls, [effect.postErrorMsg runID "Snapshot failed"])) ∧
    (∀ ls now rest s2, s2.runID = runID →
      runTicks runID frameSeconds ls ((now, none) :: rest) s2 =
        ((runTicks runID frameSeconds ls rest s2).1,
         effect.postErrorMsg runID "Snapshot failed" ::
           (runTicks runID frameSeconds ls rest s2).2)) := by
  have hcur : isCurrentRun runID s = true := by
    unfold isCurrentRun
    simp [h]
  refine ⟨?_, ?_, ?_, ?_⟩
  · intro ticks
    unfold runMonitorModel postErrorF
    rw [if_pos hcur]
  · intro ticks
    unfold runMonitorModel
    simp [stopFromWorker, h]
  · intro ls now
    unfold updateFrameM postErrorF
    rw [if_pos hcur]
  · intro ls now rest s2 hs2
    have hcur2 : isCurrentRun runID s2 = true := by
      unfold isCurrentRun
      simp [hs2]
    simp [runTicks, updateFrameM, postErrorF, hcur2]

/-- C9 witness: run id 1 against the post-Start state (whose run id is 1). -/
theorem C9_snapshot_failure_handling_witness :
    (c1AfterFirstStart.runID = 1) ∧
    ((∀ ticks, runMonitorModel 1 1 none 0 ticks c1AfterFirstStart =
       (stopFromWorker 1 c1AfterFirstStart,
        [effect.postErrorMsg 1 "Initial snapshot failed"])) ∧
     (∀ ticks,
       (runMonitorModel 1 1 none 0 ticks c1AfterFirstStart).1.running = false) ∧
     (∀ ls now, updateFrameM 1 1 ls now none c1AfterFirstStart =
       (c1AfterFirstStart, ls, [effect.postErrorMsg 1 "Snapshot failed"])) ∧
     (∀ ls now rest s2, s2.runID = 1 →
       runTicks 1 1 ls ((now, none) :: rest) s2 =
         ((runTicks 1 1 ls rest s2).1,
          effect.postErrorMsg 1 "Snapshot failed" :: (runTicks 1 1 ls rest s2).2))) :=
  ⟨by decide, C9_snapshot_failure_handling 1 1 0 c1AfterFirstStart (by decide)⟩

theorem take_limit_eq {α : Type} (l : List α) :
    l.take (if l.length > 500 then 500 else l.length) = l.take 500 := by
  by_cases h : l.length > 500
  · rw [if_pos h]
  · rw [if_neg h, List.take_length, List.take_of_length_le (le_of_not_lt h)]

/-- C10: both rendered tables emit at most 500 rows: after the hide-small
filter (frame table) or the aggregation filter and sort (summary table),
everything beyond the first 500 rows is silently omitted. -/
theorem C10_render_caps (rows : List resultRow) (history : List frameRecord)
    (hideSmall hidePaths : Bool) :
    (renderTableLines rows hideSmall hidePaths).length ≤ 500 ∧
    renderTableLines rows hideSmall hidePaths =
      ((rows.filter (fun row => !(hideSmall && decide (row.Diff < 1)))).take 500).map
        (renderRowLine hidePaths) ∧
    (renderSummaryLines history hideSmall hidePaths).length ≤ 500 ∧
    renderSummaryLines history hideSmall hidePaths =
      ((summaryRows history hideSmall).take 500).map (renderAggLine hidePaths) := by
  refine ⟨?_, ?_, ?_, ?_⟩
  · unfold renderTableLines
    simp only [take_limit_eq, List.length_map, List.length_take]
    exact min_le_left _ _
  · unfold renderTableLines
    simp only [take_limit_eq]
  · unfold renderSummaryLines
    simp only [take_limit_eq, List.length_map, List.length_take]
    exact min_le_left _ _
  · unfold renderSummaryLines
    simp only [take_limit_eq]
